import Mathlib

/-!
# Verification of the Cetus DLMM grid strategy (`src/amm-strategy.ts`)

Shallow embedding of the `AMMStrategy` class.  Prices that the TypeScript
code manipulates as decimal strings and compares via `parseFloat` are
modelled as rationals (`ℚ`); on-chain token balances (`BN` decimal strings
of `u64` totals) are modelled as `ℕ`.  Every asynchronous call into the
chain client or the DLMM SDK is modelled by an explicit environment value:
an `Except String α` field stands for an awaited call that either resolves
with a value or rejects, and opaque SDK computations (bin math, liquidity
share parsing) are uninterpreted data or function parameters.  Each
strategy operation returns its result together with a trace of the
externally visible actions it performed (calculator invocations and
transaction submissions), so that sequencing claims can be stated.
-/

namespace AMMStrategy

/-- The two tokens of the pool: token A is USDC, token B is USDT
(`config.tokenA` / `config.tokenB` in `src/config.ts`). -/
inductive Token where
  | USDC
  | USDT
deriving DecidableEq, Repr

/-- Model of `StrategyConfig` from `src/amm-strategy.ts` (lines 6–30).  The price
bounds `upperPrice`/`lowerPrice` and `slippage` are decimal strings or
numbers in the source, modelled as `ℚ`; `positionSize` is a base-unit
amount string, modelled as `ℕ`.  `network` is a fixed literal and is
omitted. -/
structure StrategyConfig where
  upperPrice : ℚ
  lowerPrice : ℚ
  tokenA : String
  tokenB : String
  positionSize : ℕ
  binStep : ℕ
  senderAddress : String
  poolId : Option String
  checkInterval : ℕ
  slippage : ℚ
deriving DecidableEq, Repr

/-- Model of `PositionState` from `src/amm-strategy.ts` (lines 32–42).
`totalProfit` is a decimal string in the source, modelled as `ℤ`;
`currentBalance` is the pair of USDC/USDT balance strings, modelled as
`ℕ × ℕ`. -/
structure PositionState where
  currentToken : Token
  currentPositionId : Option String
  currentBinId : Option ℤ
  lastActionTime : ℕ
  totalProfit : ℤ
  currentBalance : Option (ℕ × ℕ)
deriving DecidableEq, Repr

/-- Pool snapshot returned by `sdk.Pool.getPool` — only the fields the
strategy reads: `active_id`, `bin_step`, the bin-manager handle and the
pool's reward coin list (`reward_manager.rewards[*].reward_coin`). -/
structure Pool where
  active_id : ℤ
  bin_step : ℕ
  bin_manager_handle : String
  reward_coins : List String
deriving DecidableEq, Repr

/-- Position snapshot returned by `sdk.Position.getPosition` — the fields
read by `removeLiquidity`: bin range and the opaque liquidity-share
encoding. -/
structure Position where
  lower_bin_id : ℤ
  upper_bin_id : ℤ
  liquidity_shares : List ℕ
deriving DecidableEq, Repr

/-- Result of `sdk.Position.getActiveBinIfInRange`: the token amounts
already resident in the active bin (`amount_a` / `amount_b`). -/
structure ActiveBinAmounts where
  amount_a : ℕ
  amount_b : ℕ
deriving DecidableEq, Repr

/-- A created-object record in transaction effects
(`result.effects?.created`), with its optional `objectType` and its
`objectId`. -/
structure CreatedObject where
  objectType : Option String
  objectId : String
deriving DecidableEq, Repr

/-- An emitted event in transaction effects (`result.effects?.events`),
with its `type` tag and the `positionId` payload field read by
`extractPositionId`. -/
structure TxEvent where
  type : String
  positionId : String
deriving DecidableEq, Repr

/-- The transaction result returned by
`client.signAndExecuteTransaction` — digest plus the effects that
`extractPositionId` scans. -/
structure TxResult where
  digest : String
  created : List CreatedObject
  events : List TxEvent
deriving DecidableEq, Repr

/-- The per-bin decoded liquidity shares produced by
`parseLiquidityShares(...)` (`liquiditySharesData.bins`): opaque SDK data,
modelled as bin-id/amount pairs. -/
abbrev LiquidityBins := List (ℤ × ℕ)

/-- The option record built for
`sdk.Position.calculateAddLiquidityInfo` (lines 319–329 of
`src/amm-strategy.ts`).  The constant `strategy_type: StrategyType.Spot`
field is omitted. -/
structure CalculateOption where
  coin_amount : ℕ
  fix_amount_a : Bool
  active_id : ℤ
  bin_step : ℕ
  lower_bin_id : ℤ
  upper_bin_id : ℤ
  amount_a_in_active_bin : ℕ
  amount_b_in_active_bin : ℕ
deriving DecidableEq, Repr

/-- The option record built for
`sdk.Position.calculateRemoveLiquidityInfo` (lines 433–438 of
`src/amm-strategy.ts`). -/
structure RemoveOption where
  bins : LiquidityBins
  active_id : ℤ
  is_only_a : Bool
  coin_amount : ℕ
deriving DecidableEq, Repr

/-- Errors thrown by the strategy itself.  `insufficientBalance` is the
`Insufficient ... balance, cannot add liquidity` throw in
`addLiquidityAtBin`; every rejected SDK/chain call is `sdkError`. -/
inductive StrategyError where
  | insufficientBalance (token : Token)
  | sdkError (msg : String)
deriving DecidableEq, Repr

/-- The externally visible actions of one strategy operation, in order:
SDK calculator invocations and transaction build-and-submit steps. -/
inductive Action where
  | invokeAddLiquidity (tokenType : Token) (binId : ℤ)
  | calcAdd (opt : CalculateOption)
  | submitAddTx (existingPosition : Bool) (binId : ℤ)
  | calcRemove (opt : RemoveOption)
  | submitRemoveTx (positionId : String)
  | submitCollectTx (positionId : String)
deriving DecidableEq, Repr

/-- Model of `getTokenBalances` (lines 533–559): awaits the two balance queries
(modelled as one joint result, since `Promise.all` rejects when either
rejects); on success records the balances in `state.currentBalance` and
returns them; on any rejection the `catch` returns the zero pair
without touching state.  Returns the updated state together with the
`(usdc, usdt)` pair. -/
def getTokenBalances (query : Except String (ℕ × ℕ)) (st : PositionState) :
    PositionState × ℕ × ℕ :=
  match query with
  | .ok (usdc, usdt) => ({ st with currentBalance := some (usdc, usdt) }, usdc, usdt)
  | .error _ => (st, 0, 0)

/-- Model of `detectInitialToken` (lines 564–602).  The awaited
`this.getTokenBalances()` call is modelled by `balancesCall`: on success
it yields the post-call state and the `(usdc, usdt)` pair; a rejection
lands in the `catch`, which keeps the current state when
`getExistingPositions()` found at least one position and otherwise falls
back to the default token USDT. -/
def detectInitialToken (balancesCall : Except String (PositionState × ℕ × ℕ))
    (existingPositions : List String) (st : PositionState) : PositionState :=
  match balancesCall with
  | .ok (st1, usdcBalance, usdtBalance) =>
    if usdcBalance > usdtBalance then
      { st1 with currentToken := Token.USDC }
    else if usdtBalance > usdcBalance then
      { st1 with currentToken := Token.USDT }
    else
      { st1 with currentToken := Token.USDT }
  | .error _ =>
    if existingPositions.length > 0 then
      st
    else
      { st with currentToken := Token.USDT }

/-- Model of `extractPositionId` (lines 608–634): scan `effects.created` for an
object whose type contains `position::Position`; if none, scan
`effects.events` for a `position::PositionCreated` event; if neither
matches, return the placeholder id `0xposition123`. -/
def extractPositionId (result : TxResult) : String :=
  let createdObjects := result.created
  match createdObjects.find? (fun obj =>
      match obj.objectType with
      | some t => t.containsSubstr "position::Position".toSubstring
      | none => false) with
  | some positionObject => positionObject.objectId
  | none =>
    match result.events.find? (fun event => event.type == "position::PositionCreated") with
    | some event => event.positionId
    | none => "0xposition123"

/-- Environment of `addLiquidityAtBin`: the outcome of each awaited
chain/SDK call it performs, in source order — the balance query pair
underlying `getTokenBalances`, `Pool.getPool`,
`Position.getActiveBinIfInRange` (which may legitimately resolve with no
amounts, hence the inner `Option`), `calculateAddLiquidityInfo` (opaque
bin infos, modelled as `ℕ`), and the two possible
`signAndExecuteTransaction` submissions (top-up of an existing position
versus opening a new one). -/
structure AddEnv where
  balancesQuery : Except String (ℕ × ℕ)
  poolFetch : Except String Pool
  activeBinFetch : Except String (Option ActiveBinAmounts)
  calcFetch : Except String ℕ
  addTxResult : Except String TxResult
  openTxResult : Except String TxResult

/-- Model of `addLiquidityAtBin` (lines 293–396).  Uses the full balance of the
deposited token, throws `insufficientBalance` when that balance is not
positive (before any pool fetch, payload build or submission), builds the
Fixed-Amount `CalculateOption` with `fix_amount_a = (tokenType == USDC)`,
then either tops up the existing position or opens a new one; after a
successful open it stores `extractPositionId` of the transaction result
in `currentPositionId` and the bin in `currentBinId`.  Errors of awaited
calls propagate (the `catch` logs and rethrows). -/
def addLiquidityAtBin (cfg : StrategyConfig) (st : PositionState) (binId : ℤ)
    (tokenType : Token) (env : AddEnv) :
    Except StrategyError PositionState × List Action :=
  let entry := [Action.invokeAddLiquidity tokenType binId]
  let (st1, balances) := getTokenBalances env.balancesQuery st
  let amount := if tokenType = Token.USDC then balances.1 else balances.2
  if amount ≤ 0 then
    (.error (.insufficientBalance tokenType), entry)
  else
    match env.poolFetch with
    | .error e => (.error (.sdkError e), entry)
    | .ok pool =>
      match env.activeBinFetch with
      | .error e => (.error (.sdkError e), entry)
      | .ok amountsInActiveBin =>
        let fixAmountA := tokenType = Token.USDC
        let calculateOption : CalculateOption := {
          coin_amount := amount
          fix_amount_a := fixAmountA
          active_id := pool.active_id
          bin_step := cfg.binStep
          lower_bin_id := binId
          upper_bin_id := binId
          amount_a_in_active_bin := (amountsInActiveBin.map (·.amount_a)).getD 0
          amount_b_in_active_bin := (amountsInActiveBin.map (·.amount_b)).getD 0 }
        match env.calcFetch with
        | .error e => (.error (.sdkError e), entry ++ [Action.calcAdd calculateOption])
        | .ok _binInfos =>
          match st1.currentPositionId with
          | some _pid =>
            match env.addTxResult with
            | .error e =>
              (.error (.sdkError e),
               entry ++ [Action.calcAdd calculateOption, Action.submitAddTx true binId])
            | .ok _result =>
              (.ok st1,
               entry ++ [Action.calcAdd calculateOption, Action.submitAddTx true binId])
          | none =>
            match env.openTxResult with
            | .error e =>
              (.error (.sdkError e),
               entry ++ [Action.calcAdd calculateOption, Action.submitAddTx false binId])
            | .ok result =>
              (.ok { st1 with
                      currentPositionId := some (extractPositionId result)
                      currentBinId := some binId },
               entry ++ [Action.calcAdd calculateOption, Action.submitAddTx false binId])

/-- Environment of `removeLiquidity`: outcomes of `Position.getPosition`,
`Pool.getPool`, `Pool.getBinInfo` (opaque active-bin info, modelled as
`ℕ`), the pure `parseLiquidityShares` result, and the
`signAndExecuteTransaction` submission. -/
structure RemoveEnv where
  positionFetch : Except String Position
  poolFetch : Except String Pool
  binInfoFetch : Except String ℕ
  parsedBins : LiquidityBins
  txResult : Except String TxResult

/-- Model of `removeLiquidity` (lines 402–474).  Chooses the withdrawal side by
`isOnlyA = (currentToken == USDT)` (withdraw only USDC when holding USDT
and vice versa), requests the withdrawal plan for the configured
`positionSize`, submits the transaction, and on success clears
`currentPositionId` and `currentBinId`.  Errors of awaited calls
propagate (the `catch` logs and rethrows). -/
def removeLiquidity (cfg : StrategyConfig) (st : PositionState)
    (positionId : String) (env : RemoveEnv) :
    Except StrategyError PositionState × List Action :=
  match env.positionFetch with
  | .error e => (.error (.sdkError e), [])
  | .ok _position =>
    match env.poolFetch with
    | .error e => (.error (.sdkError e), [])
    | .ok pool =>
      match env.binInfoFetch with
      | .error e => (.error (.sdkError e), [])
      | .ok _activeBin =>
        let isOnlyA := st.currentToken = Token.USDT
        let removeOption : RemoveOption := {
          bins := env.parsedBins
          active_id := pool.active_id
          is_only_a := isOnlyA
          coin_amount := cfg.positionSize }
        match env.txResult with
        | .error e =>
          (.error (.sdkError e),
           [Action.calcRemove removeOption, Action.submitRemoveTx positionId])
        | .ok _result =>
          (.ok { st with currentPositionId := none, currentBinId := none },
           [Action.calcRemove removeOption, Action.submitRemoveTx positionId])

/-- Environment of `collectFeesAndRewards`: outcomes of `Pool.getPool`
and of the collect transaction submission. -/
structure CollectEnv where
  poolFetch : Except String Pool
  txResult : Except String TxResult

/-- Model of `collectFeesAndRewards` (lines 480–512).  Skips silently when the
pool address is unset; otherwise fetches the pool and submits the collect
transaction.  The whole body is inside a `catch` that logs and does NOT
rethrow, so the operation never produces an error — it only yields the
trace of actions it got to perform. -/
def collectFeesAndRewards (poolAddress : Option String) (positionId : String)
    (env : CollectEnv) : List Action :=
  match poolAddress with
  | none => []
  | some _ =>
    match env.poolFetch with
    | .error _ => []
    | .ok _pool =>
      match env.txResult with
      | .error _ => [Action.submitCollectTx positionId]
      | .ok _result => [Action.submitCollectTx positionId]

/-- Model of `priceToBinId` (lines 517–528): delegates to
`BinUtils.getBinIdFromPrice(price, binStep, false, 6, 6)`, external SDK
bin math passed in as the uninterpreted function `binIdOfPrice` of the
price and the bin step. -/
def priceToBinId (binIdOfPrice : ℚ → ℕ → ℤ) (cfg : StrategyConfig)
    (price : ℚ) : ℤ :=
  binIdOfPrice price cfg.binStep

/-- Environment of one `executeBuyUSDC` / `executeBuyUSDT` transition:
the SDK bin-math function used by `priceToBinId`, plus the environments
of the three sub-operations. -/
structure ExecEnv where
  binIdOfPrice : ℚ → ℕ → ℤ
  collectEnv : CollectEnv
  removeEnv : RemoveEnv
  addEnv : AddEnv

/-- Model of `executeBuyUSDC` (lines 230–256), run while holding USDT: collect
fees for the open position (if any), remove the open position (if any),
place the full USDT balance at `bin(lowerPrice)` via
`addLiquidityAtBin(lowerBinId, 'USDT')`, then set
`currentToken := USDC` and refresh `lastActionTime` (the `Date.now()`
value is the parameter `now`). -/
def executeBuyUSDC (cfg : StrategyConfig) (poolAddress : Option String)
    (st : PositionState) (now : ℕ) (env : ExecEnv) :
    Except StrategyError PositionState × List Action :=
  let collectActions :=
    match st.currentPositionId with
    | some pid => collectFeesAndRewards poolAddress pid env.collectEnv
    | none => []
  let removeStep :=
    match st.currentPositionId with
    | some pid => removeLiquidity cfg st pid env.removeEnv
    | none => (.ok st, [])
  match removeStep with
  | (.error e, removeActions) => (.error e, collectActions ++ removeActions)
  | (.ok st1, removeActions) =>
    let lowerBinId := priceToBinId env.binIdOfPrice cfg cfg.lowerPrice
    match addLiquidityAtBin cfg st1 lowerBinId Token.USDT env.addEnv with
    | (.error e, addActions) =>
      (.error e, collectActions ++ removeActions ++ addActions)
    | (.ok st2, addActions) =>
      (.ok { st2 with currentToken := Token.USDC, lastActionTime := now },
       collectActions ++ removeActions ++ addActions)

/-- Model of `executeBuyUSDT` (lines 261–287), run while holding USDC: collect
fees for the open position (if any), remove the open position (if any),
place the full USDC balance at `bin(upperPrice)` via
`addLiquidityAtBin(upperBinId, 'USDC')`, then set
`currentToken := USDT` and refresh `lastActionTime`. -/
def executeBuyUSDT (cfg : StrategyConfig) (poolAddress : Option String)
    (st : PositionState) (now : ℕ) (env : ExecEnv) :
    Except StrategyError PositionState × List Action :=
  let collectActions :=
    match st.currentPositionId with
    | some pid => collectFeesAndRewards poolAddress pid env.collectEnv
    | none => []
  let removeStep :=
    match st.currentPositionId with
    | some pid => removeLiquidity cfg st pid env.removeEnv
    | none => (.ok st, [])
  match removeStep with
  | (.error e, removeActions) => (.error e, collectActions ++ removeActions)
  | (.ok st1, removeActions) =>
    let upperBinId := priceToBinId env.binIdOfPrice cfg cfg.upperPrice
    match addLiquidityAtBin cfg st1 upperBinId Token.USDC env.addEnv with
    | (.error e, addActions) =>
      (.error e, collectActions ++ removeActions ++ addActions)
    | (.ok st2, addActions) =>
      (.ok { st2 with currentToken := Token.USDT, lastActionTime := now },
       collectActions ++ removeActions ++ addActions)

/-- Environment of `getCurrentPrice`: the outcome of `Pool.getPool` and
the SDK bin-math function `BinUtils.getPriceFromBinId(active_id,
bin_step, 6, 6)`, uninterpreted. -/
structure PriceEnv where
  poolFetch : Except String Pool
  priceFromBinId : ℤ → ℕ → ℚ

/-- Model of `getCurrentPrice` (lines 197–225): throws when the pool address is
unset, otherwise fetches the pool and rescales the SDK bin price by
`10^6`; any failure is caught and the default price `'1.0000'` is
returned instead.  (The final `toFixed(6)` decimal formatting is
modelled by the exact rational value.) -/
def getCurrentPrice (poolAddress : Option String) (env : PriceEnv) : ℚ :=
  match poolAddress with
  | none => 1
  | some _ =>
    match env.poolFetch with
    | .error _ => 1
    | .ok pool => env.priceFromBinId pool.active_id pool.bin_step * 1000000

/-- Environment of one poll iteration of `checkAndExecuteStrategy`. -/
structure CheckEnv where
  priceEnv : PriceEnv
  execEnv : ExecEnv

/-- Model of `checkAndExecuteStrategy` (lines 173–192): read the price; when
holding USDT, run `executeBuyUSDC` iff `price <= lowerPrice`; when
holding USDC, run `executeBuyUSDT` iff `price >= upperPrice`; otherwise
do nothing. -/
def checkAndExecuteStrategy (cfg : StrategyConfig) (poolAddress : Option String)
    (st : PositionState) (now : ℕ) (env : CheckEnv) :
    Except StrategyError PositionState × List Action :=
  let currentPrice := getCurrentPrice poolAddress env.priceEnv
  match st.currentToken with
  | Token.USDT =>
    if currentPrice ≤ cfg.lowerPrice then
      executeBuyUSDC cfg poolAddress st now env.execEnv
    else
      (.ok st, [])
  | Token.USDC =>
    if cfg.upperPrice ≤ currentPrice then
      executeBuyUSDT cfg poolAddress st now env.execEnv
    else
      (.ok st, [])

/-! ## Concrete fixtures

Concrete configurations, states and environments used to evaluate the
model on specific inputs. -/

/-- The shipped default configuration (`src/config.ts`). -/
def cfg0 : StrategyConfig :=
  { upperPrice := 1.0005
    lowerPrice := 0.9995
    tokenA := "0xdba34672::usdc::USDC"
    tokenB := "0x375f70cf::usdt::USDT"
    positionSize := 1000000
    binStep := 1
    senderAddress := "0xsender"
    poolId := some "0xpool"
    checkInterval := 10000
    slippage := 0.001 }

/-- A configuration whose band does not strictly contain the neutral
price 1 (`lowerPrice = 1`); still satisfies `lowerPrice < upperPrice`. -/
def cfgBadBand : StrategyConfig := { cfg0 with lowerPrice := 1, upperPrice := 2 }

/-- A configuration whose lower bound is above the observed price, so
that holding USDT triggers a rebalance. -/
def cfgTrig : StrategyConfig := { cfg0 with lowerPrice := 2000000, upperPrice := 3000000 }

/-- A pool snapshot fixture. -/
def pool0 : Pool :=
  { active_id := 0, bin_step := 1, bin_manager_handle := "0xhandle", reward_coins := [] }

/-- A position snapshot fixture. -/
def pos0 : Position := { lower_bin_id := 0, upper_bin_id := 0, liquidity_shares := [] }

/-- The initial strategy state (constructor, lines 70–74): holding USDT,
no open position. -/
def st0 : PositionState :=
  { currentToken := Token.USDT
    currentPositionId := none
    currentBinId := none
    lastActionTime := 0
    totalProfit := 0
    currentBalance := none }

/-- A state holding USDC with an open position. -/
def stUSDC : PositionState :=
  { st0 with currentToken := Token.USDC, currentPositionId := some "0xpos" }

/-- A state holding USDT with an open position. -/
def stPos : PositionState := { st0 with currentPositionId := some "0xpos" }

/-- A successful transaction result whose effects contain no created
objects and no events. -/
def emptyTx : TxResult := { digest := "0xdigest", created := [], events := [] }

/-- An add environment where every call succeeds, balances are
`(usdc, usdt) = (3, 7)`, and the open transaction yields `emptyTx`. -/
def addEnv0 : AddEnv :=
  { balancesQuery := .ok (3, 7)
    poolFetch := .ok pool0
    activeBinFetch := .ok none
    calcFetch := .ok 0
    addTxResult := .ok emptyTx
    openTxResult := .ok emptyTx }

/-- An add environment whose balance query rejects. -/
def addEnvBadQuery : AddEnv := { addEnv0 with balancesQuery := .error "rpc down" }

/-- A remove environment where every call succeeds. -/
def removeEnv0 : RemoveEnv :=
  { positionFetch := .ok pos0
    poolFetch := .ok pool0
    binInfoFetch := .ok 0
    parsedBins := []
    txResult := .ok emptyTx }

/-- A collect environment where every call succeeds. -/
def collectEnv0 : CollectEnv := { poolFetch := .ok pool0, txResult := .ok emptyTx }

/-- A collect environment whose transaction submission rejects. -/
def collectEnvFail : CollectEnv :=
  { poolFetch := .ok pool0, txResult := .error "collect failed" }

/-- A fully successful transition environment. -/
def execEnv0 : ExecEnv :=
  { binIdOfPrice := fun _ _ => 0
    collectEnv := collectEnv0
    removeEnv := removeEnv0
    addEnv := addEnv0 }

/-- A price environment where the pool read succeeds and the SDK bin
price is `1` (so the rescaled price is `1000000`). -/
def priceEnvOk : PriceEnv := { poolFetch := .ok pool0, priceFromBinId := fun _ _ => 1 }

/-- A price environment whose pool read rejects. -/
def priceEnvFail : PriceEnv :=
  { poolFetch := .error "rpc down", priceFromBinId := fun _ _ => 1 }

/-- A poll-iteration environment with a healthy oracle. -/
def checkEnv0 : CheckEnv := { priceEnv := priceEnvOk, execEnv := execEnv0 }

/-- A poll-iteration environment with a failing oracle. -/
def checkEnvFail : CheckEnv := { priceEnv := priceEnvFail, execEnv := execEnv0 }

/-- The remove option produced by `removeLiquidity cfg0 stUSDC` in
`removeEnv0`. -/
def optRemoveEx : RemoveOption :=
  { bins := [], active_id := 0, is_only_a := false, coin_amount := 1000000 }

/-! ## Claim theorems -/

/-- C1: the claim says that when neither the created-object records nor
the events of a successful open transaction yield a position id, the
placement fails and `currentPositionId` stays unset.  The code instead
returns the placeholder `'0xposition123'` from `extractPositionId` and
stores it: on a successful open whose effects contain no created objects
and no events, `addLiquidityAtBin` succeeds and sets `currentPositionId`
to the placeholder. -/
theorem extraction_failure_adopts_placeholder :
    extractPositionId emptyTx = "0xposition123" ∧
    (addLiquidityAtBin cfg0 st0 5 Token.USDT addEnv0).1.map
        (fun s => s.currentPositionId) = Except.ok (some "0xposition123") := by
  constructor
  · rfl
  · rfl

/-- C2 counterexample: with `currentToken = USDC` and an open position,
`removeLiquidity` requests the withdrawal plan with `is_only_a = false`,
refuting the claim that `currentToken == USDC` yields `isOnlyA == true`. -/
theorem remove_side_usdc_counterexample :
    stUSDC.currentToken = Token.USDC ∧
    (removeLiquidity cfg0 stUSDC "0xpos" removeEnv0).2 =
      [Action.calcRemove optRemoveEx, Action.submitRemoveTx "0xpos"] ∧
    optRemoveEx.is_only_a = false := by
  refine ⟨rfl, ?_, rfl⟩
  rfl

/-- C2 amended: every withdrawal plan request carries
`is_only_a = (currentToken == USDT)` — withdraw only USDC exactly when
USDT is the held token, and only USDT when USDC is held. -/
theorem remove_side_matches_held_token (cfg : StrategyConfig)
    (st : PositionState) (pid : String) (env : RemoveEnv) (opt : RemoveOption)
    (hmem : Action.calcRemove opt ∈ (removeLiquidity cfg st pid env).2) :
    opt.is_only_a = decide (st.currentToken = Token.USDT) := by
  rcases env with ⟨pf, poolf, binf, bins, tx⟩
  cases pf with
  | error e => simp [removeLiquidity] at hmem
  | ok position =>
    cases poolf with
    | error e => simp [removeLiquidity] at hmem
    | ok pool =>
      cases binf with
      | error e => simp [removeLiquidity] at hmem
      | ok activeBin =>
        cases tx with
        | error e =>
          simp [removeLiquidity] at hmem
          rw [hmem]
        | ok result =>
          simp [removeLiquidity] at hmem
          rw [hmem]

/-- C2 amended, witness: concrete instance of
`remove_side_matches_held_token` at `stUSDC`. -/
theorem remove_side_matches_held_token_witness :
    optRemoveEx.is_only_a = decide (stUSDC.currentToken = Token.USDT) :=
  remove_side_matches_held_token cfg0 stUSDC "0xpos" removeEnv0 optRemoveEx
    (by decide)

/-- C3: in each poll iteration a rebalance runs iff the guard breaches
inclusively — holding USDT triggers `executeBuyUSDC` exactly when
`price ≤ lowerPrice`, holding USDC triggers `executeBuyUSDT` exactly
when `price ≥ upperPrice`; for any price strictly inside the guard the
iteration returns the state unchanged and performs no action. -/
theorem rebalance_iff_guard_breach (cfg : StrategyConfig)
    (pa : Option String) (st : PositionState) (now : ℕ) (env : CheckEnv) :
    (st.currentToken = Token.USDT →
      getCurrentPrice pa env.priceEnv ≤ cfg.lowerPrice →
      checkAndExecuteStrategy cfg pa st now env =
        executeBuyUSDC cfg pa st now env.execEnv) ∧
    (st.currentToken = Token.USDT →
      cfg.lowerPrice < getCurrentPrice pa env.priceEnv →
      checkAndExecuteStrategy cfg pa st now env = (Except.ok st, [])) ∧
    (st.currentToken = Token.USDC →
      cfg.upperPrice ≤ getCurrentPrice pa env.priceEnv →
      checkAndExecuteStrategy cfg pa st now env =
        executeBuyUSDT cfg pa st now env.execEnv) ∧
    (st.currentToken = Token.USDC →
      getCurrentPrice pa env.priceEnv < cfg.upperPrice →
      checkAndExecuteStrategy cfg pa st now env = (Except.ok st, [])) := by
  refine ⟨fun h hp => ?_, fun h hp => ?_, fun h hp => ?_, fun h hp => ?_⟩
  · simp [checkAndExecuteStrategy, h, hp]
  · simp [checkAndExecuteStrategy, h, not_le.mpr hp]
  · simp [checkAndExecuteStrategy, h, hp]
  · simp [checkAndExecuteStrategy, h, not_le.mpr hp]

/-- C3 witness: with the default configuration, a healthy oracle price of
`1000000` and state holding USDT, the iteration is a no-op. -/
theorem rebalance_iff_guard_breach_witness :
    st0.currentToken = Token.USDT ∧
    cfg0.lowerPrice < getCurrentPrice (some "0xpool") checkEnv0.priceEnv ∧
    checkAndExecuteStrategy cfg0 (some "0xpool") st0 0 checkEnv0 =
      (Except.ok st0, []) :=
  ⟨rfl, by norm_num [getCurrentPrice, checkEnv0, priceEnvOk, cfg0, pool0],
   (rebalance_iff_guard_breach cfg0 (some "0xpool") st0 0 checkEnv0).2.1 rfl
     (by norm_num [getCurrentPrice, checkEnv0, priceEnvOk, cfg0, pool0])⟩

/-- No `invokeAddLiquidity` marker appears in a fee-collection trace. -/
lemma invoke_not_mem_collect {pa : Option String} {pid : String}
    {cenv : CollectEnv} {t : Token} {b : ℤ} :
    Action.invokeAddLiquidity t b ∉ collectFeesAndRewards pa pid cenv := by
  intro h
  rcases cenv with ⟨pf, tx⟩
  cases pa with
  | none => simp [collectFeesAndRewards] at h
  | some a => cases pf <;> cases tx <;> simp [collectFeesAndRewards] at h

/-- No `invokeAddLiquidity` marker appears in a withdrawal trace. -/
lemma invoke_not_mem_remove {cfg : StrategyConfig} {st : PositionState}
    {pid : String} {env : RemoveEnv} {t : Token} {b : ℤ} :
    Action.invokeAddLiquidity t b ∉ (removeLiquidity cfg st pid env).2 := by
  intro h
  rcases env with ⟨pf, poolf, binf, bins, tx⟩
  cases pf <;> cases poolf <;> cases binf <;> cases tx <;>
    simp [removeLiquidity] at h

/-- An `invokeAddLiquidity` marker in a placement trace carries exactly
the token and bin the placement was invoked with. -/
lemma mem_addLiquidityAtBin_invoke {cfg : StrategyConfig} {st : PositionState}
    {binId : ℤ} {tok : Token} {env : AddEnv} {t : Token} {b : ℤ}
    (h : Action.invokeAddLiquidity t b ∈ (addLiquidityAtBin cfg st binId tok env).2) :
    t = tok ∧ b = binId := by
  rcases env with ⟨bq, pf, abf, cf, atx, otx⟩
  rcases bq with e | ⟨u, v⟩
  · cases tok <;> simp [addLiquidityAtBin, getTokenBalances] at h <;> exact h
  · cases tok
    case USDC =>
      rcases Nat.eq_zero_or_pos u with hu | hu
      · subst hu
        simp [addLiquidityAtBin, getTokenBalances] at h
        exact h
      · have hne : ¬ (u ≤ 0) := by omega
        cases pf <;> cases abf <;> cases cf <;> cases atx <;> cases otx <;>
        rcases hsp : st.currentPositionId with _ | pid <;>
        simp [addLiquidityAtBin, getTokenBalances, hne, hsp] at h <;>
        exact h
    case USDT =>
      rcases Nat.eq_zero_or_pos v with hv | hv
      · subst hv
        simp [addLiquidityAtBin, getTokenBalances] at h
        exact h
      · have hne : ¬ (v ≤ 0) := by omega
        cases pf <;> cases abf <;> cases cf <;> cases atx <;> cases otx <;>
        rcases hsp : st.currentPositionId with _ | pid <;>
        simp [addLiquidityAtBin, getTokenBalances, hne, hsp] at h <;>
        exact h

/-- Lemma: `executeBuyUSDC` only ever invokes the placement with token USDT. -/
lemma invoke_mem_executeBuyUSDC {cfg : StrategyConfig} {pa : Option String}
    {st : PositionState} {now : ℕ} {env : ExecEnv} {t : Token} {b : ℤ}
    (h : Action.invokeAddLiquidity t b ∈ (executeBuyUSDC cfg pa st now env).2) :
    t = Token.USDT := by
  rcases hsp : st.currentPositionId with _ | pid <;>
    simp only [executeBuyUSDC, hsp] at h
  · rcases hadd : addLiquidityAtBin cfg st
        (priceToBinId env.binIdOfPrice cfg cfg.lowerPrice) Token.USDT env.addEnv
      with ⟨ares, aacts⟩
    rw [hadd] at h
    cases ares <;> simp only [List.nil_append, List.mem_append] at h <;>
    · have h2 : Action.invokeAddLiquidity t b ∈ (addLiquidityAtBin cfg st
          (priceToBinId env.binIdOfPrice cfg cfg.lowerPrice) Token.USDT env.addEnv).2 := by
        rw [hadd]; exact h
      exact (mem_addLiquidityAtBin_invoke h2).1
  · rcases hrem : removeLiquidity cfg st pid env.removeEnv with ⟨rres, racts⟩
    rw [hrem] at h
    cases rres with
    | error e =>
      simp only [List.mem_append] at h
      rcases h with h | h
      · exact absurd h invoke_not_mem_collect
      · have h2 : Action.invokeAddLiquidity t b ∈
            (removeLiquidity cfg st pid env.removeEnv).2 := by rw [hrem]; exact h
        exact absurd h2 invoke_not_mem_remove
    | ok st1 =>
      rcases hadd : addLiquidityAtBin cfg st1
          (priceToBinId env.binIdOfPrice cfg cfg.lowerPrice) Token.USDT env.addEnv
        with ⟨ares, aacts⟩
      cases ares <;> simp only [hadd, List.mem_append] at h <;>
      · rcases h with (h | h) | h
        · exact absurd h invoke_not_mem_collect
        · have h2 : Action.invokeAddLiquidity t b ∈
              (removeLiquidity cfg st pid env.removeEnv).2 := by rw [hrem]; exact h
          exact absurd h2 invoke_not_mem_remove
        · have h2 : Action.invokeAddLiquidity t b ∈ (addLiquidityAtBin cfg st1
              (priceToBinId env.binIdOfPrice cfg cfg.lowerPrice) Token.USDT env.addEnv).2 := by
            rw [hadd]; exact h
          exact (mem_addLiquidityAtBin_invoke h2).1

/-- Lemma: `executeBuyUSDT` only ever invokes the placement with token USDC. -/
lemma invoke_mem_executeBuyUSDT {cfg : StrategyConfig} {pa : Option String}
    {st : PositionState} {now : ℕ} {env : ExecEnv} {t : Token} {b : ℤ}
    (h : Action.invokeAddLiquidity t b ∈ (executeBuyUSDT cfg pa st now env).2) :
    t = Token.USDC := by
  rcases hsp : st.currentPositionId with _ | pid <;>
    simp only [executeBuyUSDT, hsp] at h
  · rcases hadd : addLiquidityAtBin cfg st
        (priceToBinId env.binIdOfPrice cfg cfg.upperPrice) Token.USDC env.addEnv
      with ⟨ares, aacts⟩
    rw [hadd] at h
    cases ares <;> simp only [List.nil_append, List.mem_append] at h <;>
    · have h2 : Action.invokeAddLiquidity t b ∈ (addLiquidityAtBin cfg st
          (priceToBinId env.binIdOfPrice cfg cfg.upperPrice) Token.USDC env.addEnv).2 := by
        rw [hadd]; exact h
      exact (mem_addLiquidityAtBin_invoke h2).1
  · rcases hrem : removeLiquidity cfg st pid env.removeEnv with ⟨rres, racts⟩
    rw [hrem] at h
    cases rres with
    | error e =>
      simp only [List.mem_append] at h
      rcases h with h | h
      · exact absurd h invoke_not_mem_collect
      · have h2 : Action.invokeAddLiquidity t b ∈
            (removeLiquidity cfg st pid env.removeEnv).2 := by rw [hrem]; exact h
        exact absurd h2 invoke_not_mem_remove
    | ok st1 =>
      rcases hadd : addLiquidityAtBin cfg st1
          (priceToBinId env.binIdOfPrice cfg cfg.upperPrice) Token.USDC env.addEnv
        with ⟨ares, aacts⟩
      cases ares <;> simp only [hadd, List.mem_append] at h <;>
      · rcases h with (h | h) | h
        · exact absurd h invoke_not_mem_collect
        · have h2 : Action.invokeAddLiquidity t b ∈
              (removeLiquidity cfg st pid env.removeEnv).2 := by rw [hrem]; exact h
          exact absurd h2 invoke_not_mem_remove
        · have h2 : Action.invokeAddLiquidity t b ∈ (addLiquidityAtBin cfg st1
              (priceToBinId env.binIdOfPrice cfg cfg.upperPrice) Token.USDC env.addEnv).2 := by
            rw [hadd]; exact h
          exact (mem_addLiquidityAtBin_invoke h2).1

/-- C4 amended: for every rebalance transition the placement deposits the
asset EQUAL to `state.currentToken` at the moment the placement is
invoked (the held asset is sold into the new single-bin position;
`currentToken` is flipped to the other asset only after the placement
succeeds). -/
theorem place_deposits_held_token (cfg : StrategyConfig) (pa : Option String)
    (st : PositionState) (now : ℕ) (env : CheckEnv) (t : Token) (b : ℤ)
    (hmem : Action.invokeAddLiquidity t b ∈
      (checkAndExecuteStrategy cfg pa st now env).2) :
    t = st.currentToken := by
  cases hct : st.currentToken with
  | USDT =>
    simp only [checkAndExecuteStrategy, hct] at hmem
    by_cases hb : getCurrentPrice pa env.priceEnv ≤ cfg.lowerPrice
    · rw [if_pos hb] at hmem
      exact invoke_mem_executeBuyUSDC hmem
    · rw [if_neg hb] at hmem
      simp at hmem
  | USDC =>
    simp only [checkAndExecuteStrategy, hct] at hmem
    by_cases hb : cfg.upperPrice ≤ getCurrentPrice pa env.priceEnv
    · rw [if_pos hb] at hmem
      exact invoke_mem_executeBuyUSDT hmem
    · rw [if_neg hb] at hmem
      simp at hmem

/-- C4 amended, witness: a triggered iteration from `st0` (holding USDT)
places liquidity with deposit token USDT. -/
theorem place_deposits_held_token_witness :
    (Action.invokeAddLiquidity Token.USDT 0 ∈
      (checkAndExecuteStrategy cfgTrig (some "0xpool") st0 0 checkEnv0).2) ∧
    Token.USDT = st0.currentToken := by
  have hprice : getCurrentPrice (some "0xpool") checkEnv0.priceEnv = 1000000 := by
    norm_num [getCurrentPrice, checkEnv0, priceEnvOk, pool0]
  have hch : checkAndExecuteStrategy cfgTrig (some "0xpool") st0 0 checkEnv0 =
      executeBuyUSDC cfgTrig (some "0xpool") st0 0 checkEnv0.execEnv := by
    simp only [checkAndExecuteStrategy, hprice, st0]
    norm_num [cfgTrig, cfg0]
  have hmem : Action.invokeAddLiquidity Token.USDT 0 ∈
      (checkAndExecuteStrategy cfgTrig (some "0xpool") st0 0 checkEnv0).2 := by
    rw [hch]
    decide
  exact ⟨hmem, place_deposits_held_token cfgTrig (some "0xpool") st0 0 checkEnv0
      Token.USDT 0 hmem⟩

/-- C4 counterexample: a rebalance transition from a state holding USDT
invokes `addLiquidityAtBin` with USDT — the asset equal to
`state.currentToken` at the moment of invocation, refuting the claim
that the placement is invoked with the opposite asset. -/
theorem place_opposite_token_counterexample :
    st0.currentToken = Token.USDT ∧
    (executeBuyUSDC cfg0 (some "0xpool") st0 0 execEnv0).2.head? =
      some (Action.invokeAddLiquidity Token.USDT 0) := by
  exact ⟨rfl, by decide⟩

/-- The `CalculateOption` produced by
`addLiquidityAtBin cfg0 stUSDC 5 USDT` in `addEnv0`: the full USDT
balance `7`, not the nominal `positionSize`. -/
def optAddEx : CalculateOption :=
  { coin_amount := 7
    fix_amount_a := false
    active_id := 0
    bin_step := 1
    lower_bin_id := 5
    upper_bin_id := 5
    amount_a_in_active_bin := 0
    amount_b_in_active_bin := 0 }

/-- C5: every deposit-split calculator request made by a placement uses
the entire current balance of the deposited asset (as read by
`getTokenBalances`), and every withdrawal-plan request made by
`removeLiquidity` uses the configured nominal `positionSize`. -/
theorem deposit_full_balance_remove_nominal (cfg : StrategyConfig)
    (st : PositionState) (binId : ℤ) (tok : Token) (env : AddEnv)
    (pid : String) (renv : RemoveEnv) (optA : CalculateOption)
    (optR : RemoveOption) :
    (Action.calcAdd optA ∈ (addLiquidityAtBin cfg st binId tok env).2 →
      optA.coin_amount =
        (if tok = Token.USDC then ((getTokenBalances env.balancesQuery st).2).1
         else ((getTokenBalances env.balancesQuery st).2).2)) ∧
    (Action.calcRemove optR ∈ (removeLiquidity cfg st pid renv).2 →
      optR.coin_amount = cfg.positionSize) := by
  constructor
  · intro h
    rcases env with ⟨bq, pf, abf, cf, atx, otx⟩
    rcases bq with e | ⟨u, v⟩
    · cases tok <;> simp [addLiquidityAtBin, getTokenBalances] at h
    · cases tok
      case USDC =>
        rcases Nat.eq_zero_or_pos u with hu | hu
        · subst hu
          simp [addLiquidityAtBin, getTokenBalances] at h
        · have hne : ¬ (u ≤ 0) := by omega
          cases pf <;> cases abf <;> cases cf <;> cases atx <;> cases otx <;>
            rcases hsp : st.currentPositionId with _ | pid2 <;>
            simp [addLiquidityAtBin, getTokenBalances, hne, hsp] at h <;>
            simp [h, getTokenBalances]
      case USDT =>
        rcases Nat.eq_zero_or_pos v with hv | hv
        · subst hv
          simp [addLiquidityAtBin, getTokenBalances] at h
        · have hne : ¬ (v ≤ 0) := by omega
          cases pf <;> cases abf <;> cases cf <;> cases atx <;> cases otx <;>
            rcases hsp : st.currentPositionId with _ | pid2 <;>
            simp [addLiquidityAtBin, getTokenBalances, hne, hsp] at h <;>
            simp [h, getTokenBalances]
  · intro h
    rcases renv with ⟨pf, poolf, binf, bins, tx⟩
    cases pf <;> cases poolf <;> cases binf <;> cases tx <;>
      simp [removeLiquidity] at h <;> simp [h]

/-- C5 witness: concrete placement and withdrawal runs — the calculator
request carries the full balance `7`, the withdrawal plan carries the
nominal `1000000`. -/
theorem deposit_full_balance_remove_nominal_witness :
    optAddEx.coin_amount =
      (if Token.USDT = Token.USDC
       then ((getTokenBalances addEnv0.balancesQuery stUSDC).2).1
       else ((getTokenBalances addEnv0.balancesQuery stUSDC).2).2) ∧
    optRemoveEx.coin_amount = cfg0.positionSize :=
  ⟨(deposit_full_balance_remove_nominal cfg0 stUSDC 5 Token.USDT addEnv0
      "0xpos" removeEnv0 optAddEx optRemoveEx).1 (by decide),
   (deposit_full_balance_remove_nominal cfg0 stUSDC 5 Token.USDT addEnv0
      "0xpos" removeEnv0 optAddEx optRemoveEx).2 (by decide)⟩

/-- C6 counterexample: with `lowerPrice = 1` (a legal configuration,
`lowerPrice < upperPrice` holds) and the strategy holding USDT, an
oracle read failure yields the default price `1`, which breaches the
inclusive lower guard: the iteration executes a full rebalance (the
final state holds USDC), refuting the claim that an oracle read failure
never triggers a rebalance action. -/
theorem oracle_failure_triggers_rebalance_counterexample :
    getCurrentPrice (some "0xpool") priceEnvFail = 1 ∧
    cfgBadBand.lowerPrice < cfgBadBand.upperPrice ∧
    (checkAndExecuteStrategy cfgBadBand (some "0xpool") st0 0 checkEnvFail).2 ≠ [] ∧
    (checkAndExecuteStrategy cfgBadBand (some "0xpool") st0 0 checkEnvFail).1.map
        (fun s => s.currentToken) = Except.ok Token.USDC := by
  refine ⟨rfl, by norm_num [cfgBadBand, cfg0], by decide, by rfl⟩

/-- C6 amended: `getCurrentPrice` returns the neutral default price `1`
whenever the pool read fails, and — provided the configured band
strictly contains the neutral price (`lowerPrice < 1 < upperPrice`, as
in the shipped configuration) — the controller treats that reading as no
breach, so the iteration is a no-op. -/
theorem oracle_failure_neutral_no_breach (cfg : StrategyConfig)
    (pa : Option String) (st : PositionState) (now : ℕ) (env : CheckEnv)
    (e : String) (he : env.priceEnv.poolFetch = Except.error e)
    (hlow : cfg.lowerPrice < 1) (hupp : 1 < cfg.upperPrice) :
    getCurrentPrice pa env.priceEnv = 1 ∧
    checkAndExecuteStrategy cfg pa st now env = (Except.ok st, []) := by
  have hp : getCurrentPrice pa env.priceEnv = 1 := by
    cases pa <;> simp [getCurrentPrice, he]
  refine ⟨hp, ?_⟩
  cases hct : st.currentToken with
  | USDT =>
    have hno : ¬ (getCurrentPrice pa env.priceEnv ≤ cfg.lowerPrice) := by
      rw [hp]; exact not_le.mpr hlow
    simp [checkAndExecuteStrategy, hct, hno]
  | USDC =>
    have hno : ¬ (cfg.upperPrice ≤ getCurrentPrice pa env.priceEnv) := by
      rw [hp]; exact not_le.mpr hupp
    simp [checkAndExecuteStrategy, hct, hno]

/-- C6 amended, witness: with the shipped band `[0.9995, 1.0005]` an
oracle failure is a no-op. -/
theorem oracle_failure_neutral_no_breach_witness :
    getCurrentPrice (some "0xpool") checkEnvFail.priceEnv = 1 ∧
    checkAndExecuteStrategy cfg0 (some "0xpool") st0 0 checkEnvFail =
      (Except.ok st0, []) :=
  oracle_failure_neutral_no_breach cfg0 (some "0xpool") st0 0 checkEnvFail
    "rpc down" rfl (by norm_num [cfg0]) (by norm_num [cfg0])

/-- C7: for a rebalance with an open position, the outcome of the
fee-collection step is irrelevant to the rest of the transition — the
result of `executeBuyUSDC`/`executeBuyUSDT` is the same for any two
collection environments, and the trace always continues with the FULL
`removeLiquidity` trace after the collection phase (a failed collection
is swallowed and never prevents the withdrawal from executing). -/
theorem collect_failure_never_blocks (cfg : StrategyConfig)
    (pa : Option String) (st : PositionState) (now : ℕ) (env : ExecEnv)
    (c c2 : CollectEnv) (pid : String)
    (hpos : st.currentPositionId = some pid) :
    ((executeBuyUSDC cfg pa st now { env with collectEnv := c }).1 =
      (executeBuyUSDC cfg pa st now { env with collectEnv := c2 }).1) ∧
    (∃ rest, (executeBuyUSDC cfg pa st now { env with collectEnv := c }).2 =
      collectFeesAndRewards pa pid c ++
        (removeLiquidity cfg st pid env.removeEnv).2 ++ rest) ∧
    ((executeBuyUSDT cfg pa st now { env with collectEnv := c }).1 =
      (executeBuyUSDT cfg pa st now { env with collectEnv := c2 }).1) ∧
    (∃ rest, (executeBuyUSDT cfg pa st now { env with collectEnv := c }).2 =
      collectFeesAndRewards pa pid c ++
        (removeLiquidity cfg st pid env.removeEnv).2 ++ rest) := by
  rcases hrem : removeLiquidity cfg st pid env.removeEnv with ⟨rres, racts⟩
  cases rres with
  | error e =>
    refine ⟨?_, ⟨[], ?_⟩, ?_, ⟨[], ?_⟩⟩ <;>
      simp [executeBuyUSDC, executeBuyUSDT, hpos, hrem]
  | ok st1 =>
    rcases hadd : addLiquidityAtBin cfg st1
        (priceToBinId env.binIdOfPrice cfg cfg.lowerPrice) Token.USDT env.addEnv
      with ⟨ares, aacts⟩
    rcases hadd2 : addLiquidityAtBin cfg st1
        (priceToBinId env.binIdOfPrice cfg cfg.upperPrice) Token.USDC env.addEnv
      with ⟨ares2, aacts2⟩
    refine ⟨?_, ⟨aacts, ?_⟩, ?_, ⟨aacts2, ?_⟩⟩ <;>
      cases ares <;> cases ares2 <;>
      simp [executeBuyUSDC, executeBuyUSDT, hpos, hrem, hadd, hadd2]

/-- C7 witness: from a state with an open position, the transition result
is unchanged when the collection transaction fails instead of
succeeding. -/
theorem collect_failure_never_blocks_witness :
    ((executeBuyUSDC cfg0 (some "0xpool") stPos 0
        { execEnv0 with collectEnv := collectEnvFail }).1 =
      (executeBuyUSDC cfg0 (some "0xpool") stPos 0
        { execEnv0 with collectEnv := collectEnv0 }).1) ∧
    ((executeBuyUSDT cfg0 (some "0xpool") stPos 0
        { execEnv0 with collectEnv := collectEnvFail }).1 =
      (executeBuyUSDT cfg0 (some "0xpool") stPos 0
        { execEnv0 with collectEnv := collectEnv0 }).1) :=
  ⟨(collect_failure_never_blocks cfg0 (some "0xpool") stPos 0 execEnv0
      collectEnvFail collectEnv0 "0xpos" rfl).1,
   (collect_failure_never_blocks cfg0 (some "0xpool") stPos 0 execEnv0
      collectEnvFail collectEnv0 "0xpos" rfl).2.2.1⟩

/-- An add environment whose balance query yields zero for both
tokens. -/
def addEnvZero : AddEnv := { addEnv0 with balancesQuery := .ok (0, 0) }

/-- C8: a placement fails with the insufficient-balance error exactly
when the deposited asset's available balance is zero (balances are
non-negative chain integers, so "zero or negative" collapses to zero),
and in that case the trace contains no calculator request and no
transaction build/submission — only the invocation marker. -/
theorem insufficient_balance_iff (cfg : StrategyConfig) (st : PositionState)
    (binId : ℤ) (tok : Token) (env : AddEnv) :
    ((addLiquidityAtBin cfg st binId tok env).1 =
        Except.error (StrategyError.insufficientBalance tok) ↔
      (if tok = Token.USDC then ((getTokenBalances env.balancesQuery st).2).1
       else ((getTokenBalances env.balancesQuery st).2).2) = 0) ∧
    ((if tok = Token.USDC then ((getTokenBalances env.balancesQuery st).2).1
       else ((getTokenBalances env.balancesQuery st).2).2) = 0 →
      (addLiquidityAtBin cfg st binId tok env).2 =
        [Action.invokeAddLiquidity tok binId]) := by
  rcases env with ⟨bq, pf, abf, cf, atx, otx⟩
  rcases bq with e | ⟨u, v⟩
  · cases tok <;> simp [addLiquidityAtBin, getTokenBalances]
  · cases tok
    case USDC =>
      rcases Nat.eq_zero_or_pos u with hu | hu
      · subst hu
        simp [addLiquidityAtBin, getTokenBalances]
      · have hne : ¬ (u ≤ 0) := by omega
        have hzero : ¬ (u = 0) := by omega
        cases pf <;> cases abf <;> cases cf <;> cases atx <;> cases otx <;>
          rcases hsp : st.currentPositionId with _ | pid <;>
          simp [addLiquidityAtBin, getTokenBalances, hne, hsp, hzero]
    case USDT =>
      rcases Nat.eq_zero_or_pos v with hv | hv
      · subst hv
        simp [addLiquidityAtBin, getTokenBalances]
      · have hne : ¬ (v ≤ 0) := by omega
        have hzero : ¬ (v = 0) := by omega
        cases pf <;> cases abf <;> cases cf <;> cases atx <;> cases otx <;>
          rcases hsp : st.currentPositionId with _ | pid <;>
          simp [addLiquidityAtBin, getTokenBalances, hne, hsp, hzero]

/-- C8 witness: with both balances zero, the USDT placement fails with
the insufficient-balance error and performs no calculator or transaction
action. -/
theorem insufficient_balance_iff_witness :
    (addLiquidityAtBin cfg0 st0 5 Token.USDT addEnvZero).1 =
      Except.error (StrategyError.insufficientBalance Token.USDT) ∧
    (addLiquidityAtBin cfg0 st0 5 Token.USDT addEnvZero).2 =
      [Action.invokeAddLiquidity Token.USDT 5] :=
  ⟨((insufficient_balance_iff cfg0 st0 5 Token.USDT addEnvZero).1).mpr (by decide),
   (insufficient_balance_iff cfg0 st0 5 Token.USDT addEnvZero).2 (by decide)⟩

/-- C9: initial held-asset resolution — a strictly larger USDC balance
selects USDC, a strictly larger USDT balance selects USDT, a tie
defaults to USDT; when the balance read rejects, the prior state is
preserved exactly when at least one pre-existing position was
discovered, otherwise the default USDT is used. -/
theorem initial_token_detection (call : Except String (PositionState × ℕ × ℕ))
    (positions : List String) (st st1 : PositionState) (a b : ℕ) :
    (call = Except.ok (st1, a, b) → b < a →
      (detectInitialToken call positions st).currentToken = Token.USDC) ∧
    (call = Except.ok (st1, a, b) → a < b →
      (detectInitialToken call positions st).currentToken = Token.USDT) ∧
    (call = Except.ok (st1, a, b) → a = b →
      (detectInitialToken call positions st).currentToken = Token.USDT) ∧
    (∀ e, call = Except.error e → positions ≠ [] →
      detectInitialToken call positions st = st) ∧
    (∀ e, call = Except.error e → positions = [] →
      (detectInitialToken call positions st).currentToken = Token.USDT) := by
  refine ⟨?_, ?_, ?_, ?_, ?_⟩
  · intro hc hlt
    subst hc
    simp [detectInitialToken, hlt]
  · intro hc hlt
    subst hc
    have hnot : ¬ (b < a) := by omega
    simp [detectInitialToken, hlt, hnot]
  · intro hc heq
    subst hc
    subst heq
    simp [detectInitialToken]
  · intro e hc hne
    subst hc
    simp [detectInitialToken, List.length_pos.mpr hne]
  · intro e hc hnil
    subst hc
    subst hnil
    simp [detectInitialToken]

/-- C9 witness: concrete instances — a larger USDC balance selects USDC;
a failed read with no discovered position selects the default USDT; a
failed read with one discovered position preserves the prior state. -/
theorem initial_token_detection_witness :
    (detectInitialToken (Except.ok (st0, 5, 3)) [] st0).currentToken =
      Token.USDC ∧
    (detectInitialToken (Except.error "rpc down") [] st0).currentToken =
      Token.USDT ∧
    detectInitialToken (Except.error "rpc down") ["0xpos"] stUSDC = stUSDC :=
  ⟨(initial_token_detection (Except.ok (st0, 5, 3)) [] st0 st0 5 3).1 rfl
      (by omega),
   (initial_token_detection (Except.error "rpc down") [] st0 st0 0 0).2.2.2.2
      "rpc down" rfl rfl,
   (initial_token_detection (Except.error "rpc down") ["0xpos"] stUSDC stUSDC
      0 0).2.2.2.1 "rpc down" rfl (by decide)⟩

/-- C10: `getTokenBalances` is total in the query outcome — a rejected
balance query yields the pair `(0, 0)` with the state untouched; feeding
that outcome to `detectInitialToken` resolves through the equal-balances
branch to the default USDT, and a placement whose balance query rejects
fails with the insufficient-balance error (not a read error), performing
no calculator or transaction action. -/
theorem balance_read_failure_safe (q : Except String (ℕ × ℕ)) (e : String)
    (st : PositionState) (positions : List String) (cfg : StrategyConfig)
    (binId : ℤ) (tok : Token) (env : AddEnv)
    (hq : q = Except.error e) :
    getTokenBalances q st = (st, 0, 0) ∧
    (detectInitialToken (Except.ok (getTokenBalances q st)) positions
        st).currentToken = Token.USDT ∧
    (env.balancesQuery = q →
      (addLiquidityAtBin cfg st binId tok env).1 =
        Except.error (StrategyError.insufficientBalance tok) ∧
      (addLiquidityAtBin cfg st binId tok env).2 =
        [Action.invokeAddLiquidity tok binId]) := by
  subst hq
  refine ⟨rfl, by simp [detectInitialToken, getTokenBalances], ?_⟩
  intro hbq
  cases tok <;> simp [addLiquidityAtBin, getTokenBalances, hbq]

/-- C10 witness: concrete failed query — zero pair, default USDT on
detection, insufficient-balance error on placement. -/
theorem balance_read_failure_safe_witness :
    getTokenBalances (Except.error "rpc down") st0 = (st0, 0, 0) ∧
    (detectInitialToken
        (Except.ok (getTokenBalances (Except.error "rpc down") st0)) []
        st0).currentToken = Token.USDT ∧
    (addLiquidityAtBin cfg0 st0 5 Token.USDT addEnvBadQuery).1 =
      Except.error (StrategyError.insufficientBalance Token.USDT) ∧
    (addLiquidityAtBin cfg0 st0 5 Token.USDT addEnvBadQuery).2 =
      [Action.invokeAddLiquidity Token.USDT 5] := by
  have h := balance_read_failure_safe (Except.error "rpc down") "rpc down"
    st0 [] cfg0 5 Token.USDT addEnvBadQuery rfl
  exact ⟨h.1, h.2.1, (h.2.2 rfl).1, (h.2.2 rfl).2⟩

end AMMStrategy









